import Mathlib

/-!
Verification development for the JS virtualizing obfuscator
(src/js-vm-obfuscator.js).

The file shallow-embeds the compiler pipeline and the emitted interpreter:

  * the constant pool and its dedup discipline (addConstant, lines 213-227),
  * the AST-to-bytecode lowerer (transformExpression / _transformToBytecode /
    _transformStatements, lines 205-573),
  * the bytecode encoder with NOP splicing (_obfuscateBytecode, lines 580-614)
    and the emitted decryptBytecode helper (lines 771-798),
  * the string-constant encoder (_obfuscateConstants, lines 621-645) and the
    emitted decoder (lines 800-813),
  * the emitted interpreter dispatch loop and opcode handlers
    (executeFunction / opcodeHandler / exceptionHandler, lines 873-1351).

Machine integers are modelled as Nat (bytecode bytes) and Int (JS numbers,
restricted to exact integer arithmetic, which is all the theorems exercise).
The operand stack is modelled with the top of the stack at the head of the
list; the JS arrays push and pop at their end.
-/

/-! ## Opcode numbering (constructor of JSVirtualizer, lines 25-59) -/

def opLOAD_CONST : Nat := 1
def opLOAD_VAR : Nat := 2
def opSTORE_VAR : Nat := 3
def opBINARY_OP : Nat := 4
def opCALL_FUNCTION : Nat := 5
def opRETURN : Nat := 6
def opJUMP : Nat := 7
def opJUMP_IF_TRUE : Nat := 8
def opJUMP_IF_FALSE : Nat := 9
def opCREATE_FUNCTION : Nat := 10
def opCREATE_OBJECT : Nat := 11
def opLOAD_PROPERTY : Nat := 12
def opSTORE_PROPERTY : Nat := 13
def opPOP : Nat := 14
def opDUPLICATE : Nat := 15
def opUNARY_OP : Nat := 16
def opCREATE_ARRAY : Nat := 17
def opARRAY_PUSH : Nat := 18
def opLOAD_INDEX : Nat := 19
def opSTORE_INDEX : Nat := 20
def opNEW_INSTANCE : Nat := 21
def opLOGICAL_OP : Nat := 22
def opBREAK : Nat := 23
def opCONTINUE : Nat := 24
def opTRY_BEGIN : Nat := 25
def opTRY_END : Nat := 26
def opCATCH : Nat := 27
def opTHROW : Nat := 28
def opFINALLY : Nat := 29
def opUNDEFINED : Nat := 30
def opNULL : Nat := 31
def opTHIS : Nat := 32
def opNOP : Nat := 255

/-! ## Constant pool values

Constants inserted by the lowerer are JS literals (numbers, strings,
booleans, null) and the parameter-name arrays of function nodes.  JS
number semantics are restricted to integers, which is all that the
lowerer of the verified claims inserts. -/

inductive Const where
  | num (n : Int)
  | str (s : String)
  | bool (b : Bool)
  | nullC
  | strList (l : List String)
deriving DecidableEq

/-- Rendering used to model JSON.stringify on a string list.  Escaping of
special characters inside the strings is not modelled; the result is only
used as a dedup key. -/
def jsonQuote (s : String) : String := "\"" ++ s ++ "\""

def jsonOfStrList (l : List String) : String :=
  "[" ++ String.intercalate "," (l.map jsonQuote) ++ "]"

/-- Keys of the constantsMap (lines 213-227).  In the source the key is
JSON.stringify(value) when typeof value is object or function (note that
typeof null is object, so null is keyed by the string null) and the raw
value otherwise; a JS Map distinguishes a number key from a string key,
but a JSON text key can collide with a plain string key. -/
inductive CKey where
  | knum (n : Int)
  | kstr (s : String)
  | kbool (b : Bool)
deriving DecidableEq

def ckey : Const → CKey
  | .num n => .knum n
  | .str s => .kstr s
  | .bool b => .kbool b
  | .nullC => .kstr "null"
  | .strList l => .kstr (jsonOfStrList l)

/-- Constant-pool entry after _obfuscateConstants (lines 621-645): either a
bare constant or the encoded wrapper object.  The wrapper stores the XOR
stream; the base64 transport (toString base64 at line 632, Buffer.from
base64 at line 805) is a bijection applied and immediately inverted, so it
is not represented. -/
inductive OConst where
  | plain (c : Const)
  | enc (bytes : List Nat)
deriving DecidableEq

/-! ## Runtime values of the emitted interpreter -/

/-- Behaviour of a callable runtime value.  The source creates callables
with new Function(...params, body) (lines 955-966); compiling a textual
body is a host facility, so a compiled callable carries its text and its
application is not given semantics (no claim applies one).  returnThis is
a host callable whose result is its this-binding; it is used to observe
which receiver the VM passes. -/
inductive FnBody where
  | returnThis
  | compiled (name : String) (params : List String) (body : String)
deriving DecidableEq

inductive Value where
  | num (n : Int)
  | str (s : String)
  | bool (b : Bool)
  | null
  | undef
  | obj (props : List (String × Value))
  | arr (elems : List Value)
  | func (body : FnBody)
  | err (msg : String)
  | vmSelf

/-- Applying a callable: the first argument is the this-binding the caller
supplies (func.apply(thisArg, args) in the source). -/
def applyFunc : FnBody → Value → List Value → Value
  | .returnThis, thisArg, _ => thisArg
  | .compiled _ _ _, _, _ => Value.undef

/-! ## Lowerer state (_transformToBytecode, lines 205-232)

The state carries the growing byte stream and constant pool.  The field
tr is a ghost instruction trace recording, for each emit call, the opcode
and the number of operand bytes written with it; jump patching (lines
418, 424, 494, 500, 503) overwrites operand bytes in code only and leaves
the instruction structure unchanged, so tr is not touched by patch. -/

structure LState where
  code : List Nat
  tr : List (Nat × Nat)
  consts : List Const
deriving DecidableEq

/-- First index in the pool whose key matches, mirroring the constantsMap
lookup: the map stores, for every structural key, the index of the first
pushed constant with that key. -/
def poolIndexOf (k : CKey) : List Const → Option Nat
  | [] => none
  | c :: t => if ckey c = k then some 0 else (poolIndexOf k t).map (· + 1)

/-- addConstant (lines 213-227): return the index of an existing entry with
the same structural key, otherwise push the value and return its index. -/
def addConstant (v : Const) (s : LState) : LState × Nat :=
  match poolIndexOf (ckey v) s.consts with
  | some i => (s, i)
  | none => ({ s with consts := s.consts ++ [v] }, s.consts.length)

/-- emit (lines 230-232): push the opcode and its operand bytes. -/
def emit (s : LState) (op : Nat) (args : List Nat) : LState :=
  { s with code := s.code ++ op :: args, tr := s.tr ++ [(op, args.length)] }

/-- Patching one byte of the stream, bytecode[i] = v.  Writing past the end
of a JS array would grow it, but every patch in the source targets an
operand byte of an already emitted jump, so List.set (which ignores an out
of range index) is faithful. -/
def patch (s : LState) (i v : Nat) : LState :=
  { s with code := s.code.set i v }

/-! ## The AST fragment the lowerer handles (transformExpression,
lines 235-432, and the statement dispatch, lines 434-573)

Object properties with a key that is neither an identifier nor a literal,
and array holes, are not represented (the source leaves the former with an
undefined operand and skips the latter).  unknown stands for any
expression node kind outside the switch: the source warns and emits
UNDEFINED (line 430). -/

inductive ObjKey where
  | id (name : String)
  | lit (c : Const)

mutual
inductive Expr where
  | lit (v : Const)
  | ident (name : String)
  | binary (l : Expr) (op : String) (r : Expr)
  | unary (op : String) (a : Expr)
  | logical (l : Expr) (op : String) (r : Expr)
  | call (callee : Expr) (args : ExprList)
  | member (obj : Expr) (prop : String)
  | memberIdx (obj : Expr) (idx : Expr)
  | objectE (props : PropList)
  | arrayE (elems : ExprList)
  | assignVar (name : String) (rhs : Expr)
  | assignMember (obj : Expr) (prop : String) (rhs : Expr)
  | assignIdx (obj : Expr) (idx : Expr) (rhs : Expr)
  | funcE (name : String) (params : List String) (body : String)
  | newE (callee : Expr) (args : ExprList)
  | thisE
  | cond (t : Expr) (c : Expr) (a : Expr)
  | unknown

inductive ExprList where
  | nil
  | cons (e : Expr) (es : ExprList)

inductive PropList where
  | nil
  | cons (key : ObjKey) (v : Expr) (rest : PropList)
end

def ExprList.length : ExprList → Nat
  | .nil => 0
  | .cons _ es => 1 + es.length

def objKeyConst : ObjKey → Const
  | .id n => .str n
  | .lit c => c

mutual

/-- transformExpression (lines 235-432). -/
def lowerExpr (s : LState) : Expr → LState
  | .lit v =>
      let (s, i) := addConstant v s
      emit s opLOAD_CONST [i]
  | .ident n =>
      let (s, i) := addConstant (.str n) s
      emit s opLOAD_VAR [i]
  | .binary l op r =>
      let s := lowerExpr s l
      let s := lowerExpr s r
      let (s, i) := addConstant (.str op) s
      emit s opBINARY_OP [i]
  | .unary op a =>
      let s := lowerExpr s a
      let (s, i) := addConstant (.str op) s
      emit s opUNARY_OP [i]
  | .logical l op r =>
      let s := lowerExpr s l
      let s := lowerExpr s r
      let (s, i) := addConstant (.str op) s
      emit s opLOGICAL_OP [i]
  | .call callee args =>
      let s := lowerExpr s callee
      let s := lowerExprList s args
      emit s opCALL_FUNCTION [args.length]
  | .member obj prop =>
      let s := lowerExpr s obj
      let (s, i) := addConstant (.str prop) s
      emit s opLOAD_PROPERTY [i]
  | .memberIdx obj idx =>
      let s := lowerExpr s obj
      let s := lowerExpr s idx
      emit s opLOAD_INDEX []
  | .objectE props =>
      let s := emit s opCREATE_OBJECT []
      lowerProps s props
  | .arrayE elems =>
      let s := emit s opCREATE_ARRAY []
      lowerElems s elems
  | .assignVar name rhs =>
      let s := lowerExpr s rhs
      let (s, i) := addConstant (.str name) s
      let s := emit s opSTORE_VAR [i]
      emit s opDUPLICATE []
  | .assignMember obj prop rhs =>
      let s := lowerExpr s obj
      let (s, i) := addConstant (.str prop) s
      let s := emit s opLOAD_CONST [i]
      let s := lowerExpr s rhs
      -- line 372: emit(this.opcodes.STORE_PROPERTY) with no operand byte
      let s := emit s opSTORE_PROPERTY []
      emit s opDUPLICATE []
  | .assignIdx obj idx rhs =>
      let s := lowerExpr s obj
      let s := lowerExpr s idx
      let s := lowerExpr s rhs
      let s := emit s opSTORE_INDEX []
      emit s opDUPLICATE []
  | .funcE name params body =>
      let (s, ni) := addConstant (.str name) s
      let (s, pi) := addConstant (.strList params) s
      let (s, bi) := addConstant (.str body) s
      emit s opCREATE_FUNCTION [ni, pi, bi]
  | .newE callee args =>
      let s := lowerExpr s callee
      let s := lowerExprList s args
      emit s opNEW_INSTANCE [args.length]
  | .thisE => emit s opTHIS []
  | .cond t c a =>
      let s := lowerExpr s t
      let elseJ := s.code.length
      let s := emit s opJUMP_IF_FALSE [0]
      let s := lowerExpr s c
      let endJ := s.code.length
      let s := emit s opJUMP [0]
      let s := patch s (elseJ + 1) (s.code.length - elseJ)
      let s := lowerExpr s a
      patch s (endJ + 1) (s.code.length - endJ)
  | .unknown => emit s opUNDEFINED []

def lowerExprList (s : LState) : ExprList → LState
  | .nil => s
  | .cons e es => lowerExprList (lowerExpr s e) es

/-- ObjectExpression properties (lines 299-319). -/
def lowerProps (s : LState) : PropList → LState
  | .nil => s
  | .cons k v rest =>
      let s := emit s opDUPLICATE []
      let (s, ki) := addConstant (objKeyConst k) s
      let s := lowerExpr s v
      let s := emit s opSTORE_PROPERTY [ki]
      let s := emit s opPOP []
      lowerProps s rest

/-- ArrayExpression elements (lines 327-341). -/
def lowerElems (s : LState) : ExprList → LState
  | .nil => s
  | .cons e es =>
      let s := emit s opDUPLICATE []
      let s := lowerExpr s e
      let s := emit s opARRAY_PUSH []
      let s := emit s opPOP []
      lowerElems s es

end

/-! ## Statements -/

/-- Statement kinds _transformStatements handles inside a block
(lines 526-556); nested if, loops and switch only produce a warning there
and emit nothing, which iother also stands for. -/
inductive InnerStmt where
  | iexpr (e : Expr)
  | iret (arg : Option Expr)
  | iother

/-- Argument of _transformStatements (lines 526-573): a block or a single
statement. -/
inductive InnerArg where
  | block (l : List InnerStmt)
  | singleExpr (e : Expr)
  | singleRet (arg : Option Expr)
  | singleOther

/-- Top-level statement kinds of the Program dispatch (lines 434-511);
unknown stands for any other kind, which only warns and emits nothing. -/
inductive Stmt where
  | exprStmt (e : Expr)
  | varDecl (decls : List (String × Option Expr))
  | funcDecl (name : String) (params : List String) (body : String)
  | retStmt (arg : Option Expr)
  | ifStmt (t : Expr) (cons : InnerArg) (alt : Option InnerArg)
  | unknown

def lowerInnerStmt (s : LState) : InnerStmt → LState
  | .iexpr e => emit (lowerExpr s e) opPOP []
  | .iret (some e) => emit (lowerExpr s e) opRETURN []
  | .iret none => emit (emit s opUNDEFINED []) opRETURN []
  | .iother => s

def lowerInner (s : LState) : InnerArg → LState
  | .block l => l.foldl lowerInnerStmt s
  | .singleExpr e => emit (lowerExpr s e) opPOP []
  | .singleRet (some e) => emit (lowerExpr s e) opRETURN []
  | .singleRet none => emit (emit s opUNDEFINED []) opRETURN []
  | .singleOther => s

/-- One declarator of a VariableDeclaration (lines 445-457). -/
def lowerDecl (s : LState) (d : String × Option Expr) : LState :=
  let s := match d.2 with
    | some e => lowerExpr s e
    | none => emit s opUNDEFINED []
  let (s, i) := addConstant (.str d.1) s
  let s := emit s opSTORE_VAR [i]
  emit s opPOP []

def lowerStmt (s : LState) : Stmt → LState
  | .exprStmt e => emit (lowerExpr s e) opPOP []
  | .varDecl ds => ds.foldl lowerDecl s
  | .funcDecl name params body =>
      let (s, ni) := addConstant (.str name) s
      let (s, pi) := addConstant (.strList params) s
      let (s, bi) := addConstant (.str body) s
      let s := emit s opCREATE_FUNCTION [ni, pi, bi]
      let s := emit s opSTORE_VAR [ni]
      emit s opPOP []
  | .retStmt (some e) => emit (lowerExpr s e) opRETURN []
  | .retStmt none => emit (emit s opUNDEFINED []) opRETURN []
  | .ifStmt t cons alt =>
      let s := lowerExpr s t
      let elseJ := s.code.length
      let s := emit s opJUMP_IF_FALSE [0]
      let s := lowerInner s cons
      (match alt with
      | some a =>
          let endJ := s.code.length
          let s := emit s opJUMP [0]
          let s := patch s (elseJ + 1) (s.code.length - elseJ)
          let s := lowerInner s a
          patch s (endJ + 1) (s.code.length - endJ)
      | none => patch s (elseJ + 1) (s.code.length - elseJ))
  | .unknown => s

def lowerInit : LState := { code := [], tr := [], consts := [] }

/-- Termination check of lines 514-518: when the stream is empty or its
last byte is not the RETURN opcode, append UNDEFINED and RETURN.  The
source condition (length zero or last byte differing from RETURN) is
exactly the last optional byte differing from RETURN. -/
def finishProgram (s : LState) : LState :=
  if s.code.getLast? = some opRETURN then s
  else emit (emit s opUNDEFINED []) opRETURN []

/-- _transformToBytecode on a Program body (lines 434-521). -/
def lowerProgram (prog : List Stmt) : LState :=
  finishProgram (prog.foldl lowerStmt lowerInit)

/-! ## Bytecode encoder (_obfuscateBytecode, lines 580-614) and the emitted
decryptBytecode helper (lines 771-798)

The AES-256-CBC cipher is abstracted as a pair of byte-list functions;
the theorems instantiate it with a concrete involutive cipher that
satisfies the round-trip law, showing that the failure proved about the
pipeline is independent of the cipher. -/

/-- Conversion of the bytecode number array to bytes, Buffer.from(bytecode)
at line 586: each element is reduced modulo 256. -/
def bufferFrom (l : List Nat) : List Nat := l.map (· % 256)

/-- Splicing one NOP byte at a position of the encrypted stream
(lines 599-602). -/
def spliceNop (l : List Nat) (pos : Nat) : List Nat :=
  l.take pos ++ opNOP :: l.drop pos

/-- The encrypted-and-padded stream: encrypt first, then splice a NOP at
each requested position (dead-code injection happens after encryption). -/
def obfuscateBytecode (encrypt : List Nat → List Nat) (positions : List Nat)
    (b : List Nat) : List Nat :=
  positions.foldl spliceNop (encrypt b)

/-- decryptBytecode (lines 773-798): decrypt the stored array as a whole,
then filter NOP bytes out of the decrypted result. -/
def decryptBytecode (decrypt : List Nat → List Nat) (enc : List Nat) : List Nat :=
  (decrypt enc).filter (fun x => decide (x ≠ opNOP))

/-- A concrete cipher for instantiating the scheme: XOR every byte with a
key byte.  It is involutive, so it satisfies the round-trip law a block
cipher provides. -/
def xorCipher (k : Nat) (l : List Nat) : List Nat := l.map (fun b => b ^^^ k)

/-! ## String-constant encoder (_obfuscateConstants, lines 621-645) and the
emitted decoder (lines 800-813) -/

def strBytes (s : String) : List Nat := s.data.map Char.toNat

def bytesStr (l : List Nat) : String := ⟨l.map Char.ofNat⟩

/-- XOR stream used by both sides: byte i is combined with key char
(i mod key length), lines 630-631 and 805-806. -/
def xorStream (key : List Nat) (bytes : List Nat) : List Nat :=
  bytes.enum.map (fun p => p.2 ^^^ key.getD (p.1 % key.length) 0)

/-- Encoding of one pool entry by _obfuscateConstants with the fresh
stringKey of line 623: only strings are wrapped. -/
def obfuscateStringConst (stringKey : List Nat) : Const → OConst
  | .str s => .enc (xorStream stringKey (strBytes s))
  | c => .plain c

def plainPool (s : LState) : List OConst := s.consts.map OConst.plain

/-! ## Emitted interpreter (executeFunction, lines 1244-1351, opcode
handlers, lines 969-1241, exceptionHandler, lines 873-903)

The JS while loop reads an opcode byte, fetches the operand bytes listed
in the static table of lines 1278-1302, invokes the handler, and then
interprets a non-undefined handler result as either the RETURN value or a
jump displacement.  A handler throw is routed through handleException when
tryBlocks is non-empty and propagates otherwise. -/

structure TryFrame where
  catchPC : Value
  finallyPC : Value

structure VM where
  stack : List Value
  scope : List (String × Value)
  tryBlocks : List TryFrame
  pc : Int

/-- getConstant of the runtimeHelpers (lines 816-822): array indexing out
of range yields undefined; an encoded wrapper is decoded with the
bytecode-encryption key _encryptionKey (decoder, lines 800-813). -/
def constToValue : Const → Value
  | .num n => .num n
  | .str s => .str s
  | .bool b => .bool b
  | .nullC => .null
  | .strList l => .arr (l.map .str)

def getConstant (pool : List OConst) (encKey : List Nat) : Option Nat → Value
  | none => .undef
  | some i =>
    match pool.get? i with
    | none => .undef
    | some (.plain c) => constToValue c
    | some (.enc bs) => .str (bytesStr (xorStream encKey bs))

/-- Operand bytes the dispatcher fetches per opcode (lines 1278-1302). -/
def dispatchOperandCount (op : Nat) : Nat :=
  if op = opLOAD_CONST ∨ op = opLOAD_VAR ∨ op = opSTORE_VAR ∨ op = opBINARY_OP ∨
     op = opUNARY_OP ∨ op = opLOGICAL_OP ∨ op = opJUMP ∨ op = opJUMP_IF_TRUE ∨
     op = opJUMP_IF_FALSE ∨ op = opLOAD_PROPERTY ∨ op = opSTORE_PROPERTY then 1
  else if op = opCALL_FUNCTION ∨ op = opNEW_INSTANCE then 1
  else if op = opCREATE_FUNCTION then 3
  else if op = opTRY_BEGIN then 2
  else if op = opCATCH then 1
  else 0

/-- Opcodes that have an entry in the emitted handler table (lines
969-1241).  BREAK, CONTINUE and FINALLY have no handler and hit the
Unknown-opcode branch of line 1331. -/
def hasHandler (op : Nat) : Bool :=
  [opLOAD_CONST, opLOAD_VAR, opSTORE_VAR, opBINARY_OP, opUNARY_OP, opLOGICAL_OP,
   opCALL_FUNCTION, opRETURN, opJUMP, opJUMP_IF_TRUE, opJUMP_IF_FALSE,
   opCREATE_FUNCTION, opCREATE_OBJECT, opLOAD_PROPERTY, opSTORE_PROPERTY,
   opPOP, opDUPLICATE, opCREATE_ARRAY, opARRAY_PUSH, opLOAD_INDEX,
   opSTORE_INDEX, opNEW_INSTANCE, opUNDEFINED, opNULL, opTHIS,
   opTRY_BEGIN, opTRY_END, opCATCH, opTHROW, opNOP].contains op

/-- JS truthiness for the modelled value shapes. -/
def truthy : Value → Bool
  | .num n => n != 0
  | .str s => s != ""
  | .bool b => b
  | .null => false
  | .undef => false
  | _ => true

/-- JS property-key coercion for the shapes the claims exercise; the
textual form of objects is not modelled. -/
def propKeyOf : Value → String
  | .str s => s
  | .num n => toString n
  | .bool b => if b then "true" else "false"
  | .null => "null"
  | .undef => "undefined"
  | _ => ""

def scopeGet (sc : List (String × Value)) (k : String) : Value :=
  match sc.find? (fun p => p.1 == k) with
  | some p => p.2
  | none => .undef

def scopeSet : List (String × Value) → String → Value → List (String × Value)
  | [], k, v => [(k, v)]
  | p :: t, k, v => if p.1 = k then (k, v) :: t else p :: scopeSet t k v

/-- Popping from the JS array: pop on an empty array yields undefined. -/
def popV : List Value → Value × List Value
  | [] => (.undef, [])
  | v :: t => (v, t)

/-- The argument-collection loop of CALL_FUNCTION and NEW_INSTANCE (lines
1065-1068): n pops with unshift produce the arguments in push order. -/
def popArgs : Nat → List Value → List Value × List Value
  | 0, st => ([], st)
  | n + 1, st =>
      let (v, st1) := popV st
      let (args, st2) := popArgs n st1
      (args ++ [v], st2)

/-- Strict equality on the modelled primitive shapes; comparisons that JS
resolves by coercion or reference identity are not modelled (no claim
exercises them) and yield none. -/
def primEq : Value → Value → Option Bool
  | .num a, .num b => some (a == b)
  | .str a, .str b => some (a == b)
  | .bool a, .bool b => some (a == b)
  | .null, .null => some true
  | .undef, .undef => some true
  | _, _ => none

def numBin (l r : Value) (f : Int → Int → Int) : Value :=
  match l, r with
  | .num a, .num b => .num (f a b)
  | _, _ => .undef

def numCmp (l r : Value) (f : Int → Int → Bool) : Value :=
  match l, r with
  | .num a, .num b => .bool (f a b)
  | _, _ => Value.undef

/-- Bitwise and shift operators restricted to nonnegative integers; the JS
32-bit twos-complement behaviour is not modelled (unexercised). -/
def natBin (l r : Value) (f : Nat → Nat → Nat) : Value :=
  match l, r with
  | .num a, .num b =>
      if 0 ≤ a ∧ 0 ≤ b then .num (Int.ofNat (f a.toNat b.toNat)) else .undef
  | _, _ => Value.undef

/-- The BINARY_OP switch (lines 988-1020).  none models the default branch,
which throws Unknown binary operator.  Number semantics are exact-integer;
mixed-type coercions yield undef in the model (no claim exercises them). -/
def binEval (o : String) (l r : Value) : Option Value :=
  if o = "+" then some (match l, r with
      | .num a, .num b => .num (a + b)
      | .str a, .str b => .str (a ++ b)
      | _, _ => .undef)
  else if o = "-" then some (numBin l r (· - ·))
  else if o = "*" then some (numBin l r (· * ·))
  else if o = "/" then some (numBin l r (· / ·))
  else if o = "%" then some (numBin l r (· % ·))
  else if o = "<<" then some (natBin l r (· <<< ·))
  else if o = ">>" then some (natBin l r (· >>> ·))
  else if o = ">>>" then some (natBin l r (· >>> ·))
  else if o = "&" then some (natBin l r (· &&& ·))
  else if o = "|" then some (natBin l r (· ||| ·))
  else if o = "^" then some (natBin l r (· ^^^ ·))
  else if o = "==" then some ((primEq l r).elim .undef .bool)
  else if o = "!=" then some ((primEq l r).elim .undef (fun b => .bool (!b)))
  else if o = "===" then some ((primEq l r).elim .undef .bool)
  else if o = "!==" then some ((primEq l r).elim .undef (fun b => .bool (!b)))
  else if o = "<" then some (numCmp l r (· < ·))
  else if o = "<=" then some (numCmp l r (· ≤ ·))
  else if o = ">" then some (numCmp l r (fun a b => b < a))
  else if o = ">=" then some (numCmp l r (fun a b => b ≤ a))
  else if o = "in" then some .undef
  else if o = "instanceof" then some .undef
  else none

def typeofStr : Value → String
  | .num _ => "number"
  | .str _ => "string"
  | .bool _ => "boolean"
  | .null => "object"
  | .undef => "undefined"
  | .obj _ => "object"
  | .arr _ => "object"
  | .func _ => "function"
  | .err _ => "object"
  | .vmSelf => "object"

/-- The UNARY_OP switch (lines 1028-1041) without the delete case, which
needs the stack and is handled in the dispatcher model. -/
def unEval (o : String) (a : Value) : Option Value :=
  if o = "+" then some (match a with | .num n => .num n | _ => .undef)
  else if o = "-" then some (match a with | .num n => .num (-n) | _ => .undef)
  else if o = "!" then some (.bool (!truthy a))
  else if o = "~" then some (match a with | .num n => .num (-n - 1) | _ => .undef)
  else if o = "typeof" then some (.str (typeofStr a))
  else if o = "void" then some .undef
  else none

/-- getProperty helper (lines 940-945): a null or undefined base throws,
otherwise the property is read.  Arrays answer numeric indices and length;
property reads the model does not cover yield undefined. -/
def getProp (o : Value) (prop : Value) : Except Value Value :=
  match o with
  | .null => .error (.err "Cannot read property of null")
  | .undef => .error (.err "Cannot read property of undefined")
  | .obj l => .ok ((match l.find? (fun p => p.1 == propKeyOf prop) with
      | some p => p.2
      | none => .undef))
  | .arr l => .ok ((match prop with
      | .num n => if 0 ≤ n then (l.get? n.toNat).getD .undef else .undef
      | .str str => if str = "length" then .num l.length else .undef
      | _ => .undef))
  | _ => .ok Value.undef

/-- setProperty helper (lines 947-952): a null or undefined base throws;
the assignment expression evaluates to the assigned value.  There is no
heap in the model, so the mutation of the base object is not tracked (no
claim depends on aliasing). -/
def setProp (o : Value) (_prop : Value) (v : Value) : Except Value Value :=
  match o with
  | .null => .error (.err "Cannot set property of null")
  | .undef => .error (.err "Cannot set property of undefined")
  | _ => .ok v

/-- Result of NEW_INSTANCE (lines 1175-1195): the host constructs an
instance; construction semantics beyond producing an object are not
modelled (unexercised). -/
def construct (_ : FnBody) (_ : List Value) : Value := .obj []

def asString : Value → String
  | .str s => s
  | _ => ""

def asStrList : Value → List String
  | .arr l => l.map asString
  | _ => []

/-- Handler outcome: a normal return value (undef when the JS handler
returns nothing) or a thrown value.  State mutations performed before a
throw are kept, since the JS handlers mutate the live vm object. -/
inductive HRes where
  | ok (s : VM) (rv : Value)
  | ex (e : Value) (s : VM)

/-- The opcode handler table (lines 969-1241), one branch per opcode. -/
def runHandler (pool : List OConst) (encKey : List Nat) (op : Nat)
    (ops : List (Option Nat)) (s : VM) : HRes :=
  let arg0 := (ops.get? 0).getD none
  let arg1 := (ops.get? 1).getD none
  let arg2 := (ops.get? 2).getD none
  if op = opLOAD_CONST then
    .ok { s with stack := getConstant pool encKey arg0 :: s.stack } .undef
  else if op = opLOAD_VAR then
    let name := propKeyOf (getConstant pool encKey arg0)
    .ok { s with stack := scopeGet s.scope name :: s.stack } .undef
  else if op = opSTORE_VAR then
    let name := propKeyOf (getConstant pool encKey arg0)
    let (v, st) := popV s.stack
    .ok { s with stack := st, scope := scopeSet s.scope name v } .undef
  else if op = opBINARY_OP then
    let (r, st1) := popV s.stack
    let (l, st2) := popV st1
    (match getConstant pool encKey arg0 with
    | .str o =>
        (match binEval o l r with
        | some v => .ok { s with stack := v :: st2 } .undef
        | none => .ex (.err ("Unknown binary operator: " ++ o)) { s with stack := st2 })
    | _ => .ex (.err "Unknown binary operator") { s with stack := st2 })
  else if op = opUNARY_OP then
    let (a, st1) := popV s.stack
    (match getConstant pool encKey arg0 with
    | .str o =>
        if o = "delete" then
          let (_, st2) := popV st1
          .ok { s with stack := .bool true :: st2 } .undef
        else
          (match unEval o a with
          | some v => .ok { s with stack := v :: st1 } .undef
          | none => .ex (.err ("Unknown unary operator: " ++ o)) { s with stack := st1 })
    | _ => .ex (.err "Unknown unary operator") { s with stack := st1 })
  else if op = opLOGICAL_OP then
    let (r, st1) := popV s.stack
    let (l, st2) := popV st1
    (match getConstant pool encKey arg0 with
    | .str o =>
        if o = "&&" then .ok { s with stack := (if truthy l then r else l) :: st2 } .undef
        else if o = "||" then .ok { s with stack := (if truthy l then l else r) :: st2 } .undef
        else if o = "??" then
          .ok { s with stack := (match l with | .null => r | .undef => r | _ => l) :: st2 } .undef
        else .ex (.err ("Unknown logical operator: " ++ o)) { s with stack := st2 }
    | _ => .ex (.err "Unknown logical operator") { s with stack := st2 })
  else if op = opCALL_FUNCTION then
    -- line 1076: const result = func.apply(null, args) binds this to null
    let n := arg0.getD 0
    let (args, st1) := popArgs n s.stack
    let (f, st2) := popV st1
    (match f with
    | .func fb => .ok { s with stack := applyFunc fb .null args :: st2 } .undef
    | _ => .ex (.err "is not a function") { s with stack := st2 })
  else if op = opRETURN then
    let (v, st) := popV s.stack
    .ok { s with stack := st } v
  else if op = opJUMP then
    .ok s (getConstant pool encKey arg0)
  else if op = opJUMP_IF_TRUE then
    let (c, st) := popV s.stack
    let off := getConstant pool encKey arg0
    .ok { s with stack := st } (if truthy c then off else .num 1)
  else if op = opJUMP_IF_FALSE then
    let (c, st) := popV s.stack
    let off := getConstant pool encKey arg0
    .ok { s with stack := st } (if truthy c then .num 1 else off)
  else if op = opCREATE_FUNCTION then
    let name := getConstant pool encKey arg0
    let params := getConstant pool encKey arg1
    let body := getConstant pool encKey arg2
    let f := Value.func (.compiled (asString name) (asStrList params) (asString body))
    .ok { s with stack := f :: s.stack } .undef
  else if op = opCREATE_OBJECT then
    .ok { s with stack := .obj [] :: s.stack } .undef
  else if op = opLOAD_PROPERTY then
    let (o, st1) := popV s.stack
    let key := getConstant pool encKey arg0
    (match getProp o key with
    | .ok v => .ok { s with stack := v :: st1 } .undef
    | .error e => .ex e { s with stack := st1 })
  else if op = opSTORE_PROPERTY then
    let (v, st1) := popV s.stack
    let key := getConstant pool encKey arg0
    let (o, st2) := popV st1
    (match setProp o key v with
    | .ok w => .ok { s with stack := w :: st2 } .undef
    | .error e => .ex e { s with stack := st2 })
  else if op = opPOP then
    let (_, st) := popV s.stack
    .ok { s with stack := st } .undef
  else if op = opDUPLICATE then
    let v := (s.stack.head?).getD .undef
    .ok { s with stack := v :: s.stack } .undef
  else if op = opCREATE_ARRAY then
    .ok { s with stack := .arr [] :: s.stack } .undef
  else if op = opARRAY_PUSH then
    let (v, st1) := popV s.stack
    let (a, st2) := popV st1
    (match a with
    | .arr l => .ok { s with stack := .arr (l ++ [v]) :: st2 } .undef
    | _ => .ex (.err "push is not a function") { s with stack := st2 })
  else if op = opLOAD_INDEX then
    let (i, st1) := popV s.stack
    let (o, st2) := popV st1
    (match getProp o i with
    | .ok v => .ok { s with stack := v :: st2 } .undef
    | .error e => .ex e { s with stack := st2 })
  else if op = opSTORE_INDEX then
    let (v, st1) := popV s.stack
    let (i, st2) := popV st1
    let (o, st3) := popV st2
    (match setProp o i v with
    | .ok w => .ok { s with stack := w :: st3 } .undef
    | .error e => .ex e { s with stack := st3 })
  else if op = opNEW_INSTANCE then
    let n := arg0.getD 0
    let (args, st1) := popArgs n s.stack
    let (f, st2) := popV st1
    (match f with
    | .func fb => .ok { s with stack := construct fb args :: st2 } .undef
    | _ => .ex (.err "is not a constructor") { s with stack := st2 })
  else if op = opUNDEFINED then
    .ok { s with stack := .undef :: s.stack } .undef
  else if op = opNULL then
    .ok { s with stack := .null :: s.stack } .undef
  else if op = opTHIS then
    -- handler.apply(this, ...) at line 1305 binds the vm object as this
    .ok { s with stack := .vmSelf :: s.stack } .undef
  else if op = opTRY_BEGIN then
    let c := getConstant pool encKey arg0
    let f := getConstant pool encKey arg1
    .ok { s with tryBlocks := s.tryBlocks ++ [⟨c, f⟩] } .undef
  else if op = opTRY_END then
    .ok { s with tryBlocks := s.tryBlocks.dropLast } .undef
  else if op = opCATCH then
    let name := propKeyOf (getConstant pool encKey arg0)
    let exc := (s.stack.head?).getD .undef
    .ok { s with scope := scopeSet s.scope name exc } .undef
  else if op = opTHROW then
    let (e, st) := popV s.stack
    .ex e { s with stack := st }
  else
    -- opNOP and the unreachable default (every other opcode is filtered by
    -- hasHandler before dispatch)
    .ok s .undef

inductive StepRes where
  | cont (s : VM)
  | halt (v : Value)
  | err (e : Value)

/-- JS array indexing with a possibly negative program counter. -/
def intGet (code : List Nat) (i : Int) : Option Nat :=
  if 0 ≤ i then code.get? i.toNat else none

/-- The catch clause of the dispatch loop (lines 1319-1328) together with
handleException (lines 888-902): with a non-empty tryBlocks list, push the
exception onto the stack and set pc to the catchPC of the innermost
(last) frame, leaving the frame on the list; otherwise rethrow.  A
non-numeric catchPC would make the JS pc non-numeric, the loop condition
fails and the function returns undefined. -/
def dispatchEx (e : Value) (s1 : VM) : StepRes :=
  if 0 < s1.tryBlocks.length then
    match s1.tryBlocks.getLast? with
    | some f =>
        (match f.catchPC with
         | .num n => .cont { s1 with stack := e :: s1.stack, pc := n }
         | _ => .halt .undef)
    | none => .err e
  else .err e

def isJumpOp (op : Nat) : Bool :=
  op == opJUMP || op == opJUMP_IF_TRUE || op == opJUMP_IF_FALSE

/-- One iteration of the dispatch loop (lines 1255-1333).  A non-undefined
handler result returns from the function for RETURN and adjusts the pc by
result - 1 for the jump opcodes (line 1316); a non-numeric displacement
turns the JS pc into NaN, the loop condition fails and the function
returns undefined, modelled as halting with undef.  A throw with a
non-empty tryBlocks list goes through handleException (lines 888-902),
which pushes the exception, jumps to the innermost catchPC and leaves the
try-block list unchanged; with an empty list the throw propagates.
Calling the step with pc at or past the end of the stream models the loop
condition failing: the function returns undefined (line 1336). -/
def execStep (pool : List OConst) (encKey : List Nat) (code : List Nat)
    (s : VM) : StepRes :=
  if s.pc < (code.length : Int) then
    match intGet code s.pc with
    | none => .err (.err "Unknown opcode")
    | some op =>
      if hasHandler op then
        let pc1 : Int := s.pc + 1
        let k := dispatchOperandCount op
        let operands := (List.range k).map (fun j => intGet code (pc1 + (j : Int)))
        let pc2 : Int := pc1 + (k : Int)
        match runHandler pool encKey op operands { s with pc := pc2 } with
        | .ok s1 rv =>
            (match rv with
             | .undef => .cont s1
             | _ =>
               if op = opRETURN then .halt rv
               else if isJumpOp op then
                 (match rv with
                  | .num n => .cont { s1 with pc := s1.pc + n - 1 }
                  | .bool b => .cont { s1 with pc := s1.pc + (if b then 1 else 0) - 1 }
                  | .null => .cont { s1 with pc := s1.pc - 1 }
                  | _ => .halt .undef)
               else .cont s1)
        | .ex e s1 => dispatchEx e s1
      else .err (.err "Unknown opcode")
  else .halt .undef

inductive RunRes where
  | ret (v : Value)
  | exn (e : Value)
  | out

/-- The dispatch loop with explicit fuel (the source loop has no bound; the
theorems run terminating programs, for which enough fuel exists). -/
def runLoop (pool : List OConst) (encKey : List Nat) (code : List Nat) :
    Nat → VM → RunRes
  | 0, _ => .out
  | fuel + 1, s =>
    match execStep pool encKey code s with
    | .cont s1 => runLoop pool encKey code fuel s1
    | .halt v => .ret v
    | .err e => .exn e

/-- Lower a program and execute it with the encoders disabled
(stringEncoding and deadCodeInjection are configuration switches the
options object can turn off), so the interpreter sees the plain stream and
bare constants. -/
def runLowered (prog : List Stmt) (scope0 : List (String × Value)) (fuel : Nat) : RunRes :=
  runLoop (plainPool (lowerProgram prog)) [] (lowerProgram prog).code fuel
    { stack := [], scope := scope0, tryBlocks := [], pc := 0 }

/-- Instruction boundaries as the dispatcher sees them: starting from the
head of the stream, repeatedly read an opcode and the operand bytes the
static table of lines 1278-1302 assigns to it. -/
def decodeStream : Nat → List Nat → List (Nat × List Nat)
  | 0, _ => []
  | _, [] => []
  | fuel + 1, op :: rest =>
      let k := dispatchOperandCount op
      (op, rest.take k) :: decodeStream fuel (rest.drop k)

/-! ## Concrete programs used by the claims -/

/-- The ternary expression 1 ? 2 : 3 as an expression statement. -/
def progTernary : List Stmt :=
  [Stmt.exprStmt (.cond (.lit (.num 1)) (.lit (.num 2)) (.lit (.num 3)))]

/-- The arithmetic program 1 + 2 * 3 of the end-to-end scenario. -/
def progArith : List Stmt :=
  [Stmt.exprStmt (.binary (.lit (.num 1)) "+" (.binary (.lit (.num 2)) "*" (.lit (.num 3))))]

/-- The member assignment o.p = 1 as an expression statement. -/
def progMemberAssign : List Stmt :=
  [Stmt.exprStmt (.assignMember (.ident "o") "p" (.lit (.num 1)))]

/-- The member call o.m(), returned so the call result is observable. -/
def progMemberCall : List Stmt :=
  [Stmt.retStmt (some (.call (.member (.ident "o") "m") .nil))]

/-- A numeric constant from a nonnegative integer literal. -/
def natConst (i : Nat) : Const := Const.num (Int.ofNat i)

/-- One numeric-literal expression statement. -/
def numLitStmt (i : Nat) : Stmt := Stmt.exprStmt (Expr.lit (natConst i))

/-- A program with 257 pairwise distinct constants, driving the pool past
the single-byte operand range. -/
def progManyConsts : List Stmt := (List.range 257).map numLitStmt

/-- Invariant connecting the byte stream to the ghost instruction trace:
when the stream ends in the byte RETURN, the last emitted instruction is
the operand-less RETURN.  This is what makes the last-byte check of
line 515 agree with the instruction-level reading of the claim. -/
def EndsOK (s : LState) : Prop :=
  s.code.getLast? = some opRETURN → s.tr.getLast? = some (opRETURN, 0)

/-! # Theorems -/

/-! ## List and emission helper lemmas -/

theorem getLast?_set_law (l : List Nat) (i v : Nat) :
    (l.set i v).getLast? = if i + 1 = l.length then some v else l.getLast? := by
  rcases l with _ | ⟨a, t⟩
  · simp
  · rw [List.getLast?_eq_getElem?, List.getLast?_eq_getElem?, List.length_set,
      List.getElem?_set]
    simp only [List.length_cons]
    split_ifs <;> first | rfl | omega

theorem emit_code (s : LState) (op : Nat) (args : List Nat) :
    (emit s op args).code = s.code ++ op :: args := rfl

theorem emit_tr (s : LState) (op : Nat) (args : List Nat) :
    (emit s op args).tr = s.tr ++ [(op, args.length)] := rfl

theorem emit_code_getLast (s : LState) (op : Nat) (args : List Nat) :
    (emit s op args).code.getLast? = (op :: args).getLast? := by
  rw [emit_code, List.getLast?_append_cons]

theorem emit_tr_getLast (s : LState) (op : Nat) (args : List Nat) :
    (emit s op args).tr.getLast? = some (op, args.length) := by
  rw [emit_tr, List.getLast?_concat]

/-! ## The stream always ends in a RETURN instruction -/

theorem endsOK_of_last_eq (s : LState) (b : Nat) (hb : s.code.getLast? = some b)
    (hne : b ≠ opRETURN) : EndsOK s := by
  intro h
  rw [hb] at h
  exact absurd (Option.some.inj h) hne

theorem endsOK_emit_pop (s : LState) : EndsOK (emit s opPOP []) := by
  refine endsOK_of_last_eq _ opPOP ?_ (by decide)
  rw [emit_code_getLast]
  rfl

theorem endsOK_emit_ret (s : LState) : EndsOK (emit s opRETURN []) := by
  intro _
  rw [emit_tr_getLast]
  rfl

theorem endsOK_emit_placeholder (s : LState) (op : Nat) : EndsOK (emit s op [0]) := by
  refine endsOK_of_last_eq _ 0 ?_ (by decide)
  rw [emit_code_getLast]
  rfl

theorem endsOK_patch (s : LState) (base : Nat) (h : EndsOK s) :
    EndsOK (patch s (base + 1) (s.code.length - base)) := by
  intro hl
  have hset : (patch s (base + 1) (s.code.length - base)).code.getLast?
      = if base + 1 + 1 = s.code.length then some (s.code.length - base)
        else s.code.getLast? := getLast?_set_law _ _ _
  rw [hset] at hl
  by_cases hc : base + 1 + 1 = s.code.length
  · rw [if_pos hc] at hl
    have h2 : s.code.length - base = 2 := by omega
    rw [h2] at hl
    exact absurd (Option.some.inj hl) (by decide)
  · rw [if_neg hc] at hl
    exact h hl

theorem endsOK_lowerInnerStmt (s : LState) (st : InnerStmt) (h : EndsOK s) :
    EndsOK (lowerInnerStmt s st) := by
  cases st with
  | iexpr e => exact endsOK_emit_pop _
  | iret a =>
      cases a with
      | some e => exact endsOK_emit_ret _
      | none => exact endsOK_emit_ret _
  | iother => exact h

theorem endsOK_innerFold (l : List InnerStmt) (s : LState) (h : EndsOK s) :
    EndsOK (l.foldl lowerInnerStmt s) := by
  induction l generalizing s with
  | nil => exact h
  | cons st t ih => exact ih _ (endsOK_lowerInnerStmt s st h)

theorem endsOK_lowerInner (s : LState) (i : InnerArg) (h : EndsOK s) :
    EndsOK (lowerInner s i) := by
  cases i with
  | block l => exact endsOK_innerFold l s h
  | singleExpr e => exact endsOK_emit_pop _
  | singleRet a =>
      cases a with
      | some e => exact endsOK_emit_ret _
      | none => exact endsOK_emit_ret _
  | singleOther => exact h

theorem endsOK_lowerDecl (s : LState) (d : String × Option Expr) :
    EndsOK (lowerDecl s d) := by
  obtain ⟨nm, init⟩ := d
  cases init with
  | some e => exact endsOK_emit_pop _
  | none => exact endsOK_emit_pop _

theorem endsOK_declFold (ds : List (String × Option Expr)) (s : LState) (h : EndsOK s) :
    EndsOK (ds.foldl lowerDecl s) := by
  induction ds generalizing s with
  | nil => exact h
  | cons d t ih => exact ih _ (endsOK_lowerDecl s d)

theorem endsOK_lowerStmt (s : LState) (st : Stmt) (h : EndsOK s) :
    EndsOK (lowerStmt s st) := by
  cases st with
  | exprStmt e => exact endsOK_emit_pop _
  | varDecl ds => exact endsOK_declFold ds s h
  | funcDecl n p b => exact endsOK_emit_pop _
  | retStmt a =>
      cases a with
      | some e => exact endsOK_emit_ret _
      | none => exact endsOK_emit_ret _
  | ifStmt t c a =>
      cases a with
      | none =>
          exact endsOK_patch _ _ (endsOK_lowerInner _ c (endsOK_emit_placeholder _ _))
      | some alt =>
          exact endsOK_patch _ _
            (endsOK_lowerInner _ alt
              (endsOK_patch _ _ (endsOK_emit_placeholder _ _)))
  | unknown => exact h

theorem endsOK_stmtFold (l : List Stmt) (s : LState) (h : EndsOK s) :
    EndsOK (l.foldl lowerStmt s) := by
  induction l generalizing s with
  | nil => exact h
  | cons st t ih => exact ih _ (endsOK_lowerStmt s st h)

theorem finish_endsRet (s : LState) (h : EndsOK s) :
    (finishProgram s).tr.getLast? = some (opRETURN, 0) := by
  unfold finishProgram
  by_cases hl : s.code.getLast? = some opRETURN
  · rw [if_pos hl]
    exact h hl
  · rw [if_neg hl, emit_tr_getLast]
    rfl

/-- Claim C7: after the termination check, the emitted stream always ends
in a RETURN instruction; and when the stream does not already end in the
RETURN byte, the lowerer appends the two instructions UNDEFINED and
RETURN. -/
theorem c7_terminal_return (prog : List Stmt) :
    (lowerProgram prog).tr.getLast? = some (opRETURN, 0)
    ∧ ((prog.foldl lowerStmt lowerInit).code.getLast? ≠ some opRETURN →
        lowerProgram prog
          = emit (emit (prog.foldl lowerStmt lowerInit) opUNDEFINED []) opRETURN []) := by
  constructor
  · exact finish_endsRet _ (endsOK_stmtFold prog _ (by intro h; simp [lowerInit] at h))
  · intro hne
    unfold lowerProgram finishProgram
    rw [if_neg hne]

theorem c7_witness :
    lowerProgram []
      = emit (emit (([] : List Stmt).foldl lowerStmt lowerInit) opUNDEFINED []) opRETURN [] :=
  (c7_terminal_return []).2 (by decide)

/-! ## Constant-pool deduplication -/

theorem poolIndexOf_append_self (k : CKey) (l : List Const) (c : Const)
    (h : poolIndexOf k l = none) (hk : ckey c = k) :
    poolIndexOf k (l ++ [c]) = some l.length := by
  induction l with
  | nil => simp [poolIndexOf, hk]
  | cons a t ih =>
      rw [List.cons_append]
      unfold poolIndexOf at h ⊢
      by_cases hc : ckey a = k
      · rw [if_pos hc] at h
        exact absurd h (by simp)
      · rw [if_neg hc] at h ⊢
        have ht : poolIndexOf k t = none := by
          rcases hx : poolIndexOf k t with _ | i
          · rfl
          · rw [hx] at h
            simp at h
        rw [ih ht]
        rfl

/-- Claim C8: inserting the same constant twice returns the index produced
by the first insertion and leaves the lowering state unchanged, because
addConstant deduplicates by structural key at insertion. -/
theorem c8_dedup (s : LState) (c : Const) :
    (addConstant c (addConstant c s).1).2 = (addConstant c s).2
    ∧ (addConstant c (addConstant c s).1).1 = (addConstant c s).1 := by
  unfold addConstant
  rcases h : poolIndexOf (ckey c) s.consts with _ | i
  · have h2 : poolIndexOf (ckey c) (s.consts ++ [c]) = some s.consts.length :=
      poolIndexOf_append_self _ _ _ h rfl
    simp [h2]
  · simp [h]

/-! ## A pool larger than one operand byte -/

theorem poolIndexOf_map_natConst_none (l : List Nat) (n : Nat) (hn : ∀ m ∈ l, m ≠ n) :
    poolIndexOf (ckey (natConst n)) (l.map natConst) = none := by
  induction l with
  | nil => rfl
  | cons a t ih =>
      have ha : ckey (natConst a) ≠ ckey (natConst n) := by
        simp only [natConst, ckey, ne_eq, CKey.knum.injEq, Int.ofNat.injEq]
        exact hn a (List.mem_cons_self a t)
      rw [List.map_cons]
      unfold poolIndexOf
      rw [if_neg ha, ih (fun m hm => hn m (List.mem_cons_of_mem a hm))]
      rfl

theorem manyConsts_fold (k : Nat) :
    ((List.range k).map numLitStmt).foldl lowerStmt lowerInit
      = { code := (List.range k).flatMap (fun i => [opLOAD_CONST, i, opPOP]),
          tr := (List.range k).flatMap (fun _ => [(opLOAD_CONST, 1), (opPOP, 0)]),
          consts := (List.range k).map natConst } := by
  induction k with
  | zero => rfl
  | succ n ih =>
      rw [List.range_succ, List.map_append, List.foldl_append, ih]
      have hnone : poolIndexOf (ckey (natConst n))
          ((List.range n).map natConst) = none :=
        poolIndexOf_map_natConst_none _ _ (fun m hm => by
          rw [List.mem_range] at hm
          omega)
      show lowerStmt _ (numLitStmt n) = _
      simp only [numLitStmt, lowerStmt, lowerExpr, addConstant, hnone, emit]
      simp [List.flatMap_append, List.append_assoc]

theorem range257 : List.range 257 = List.range 256 ++ [256] := by
  rw [show (257 : Nat) = Nat.succ 256 from rfl, List.range_succ]

theorem manyConsts_fold_code :
    (((List.range 257).map numLitStmt).foldl lowerStmt lowerInit).code
      = (List.range 257).flatMap (fun i => [opLOAD_CONST, i, opPOP]) := by
  rw [manyConsts_fold]

theorem manyConsts_fold_len :
    (((List.range 257).map numLitStmt).foldl lowerStmt lowerInit).consts.length = 257 := by
  rw [manyConsts_fold]
  simp

theorem emit_consts (s : LState) (op : Nat) (args : List Nat) :
    (emit s op args).consts = s.consts := rfl

theorem manyConsts_flat_getLast :
    (((List.range 257).flatMap (fun i => [opLOAD_CONST, i, opPOP])) : List Nat).getLast?
      = some opPOP := by
  rw [range257, List.flatMap_append]
  rw [show (([256] : List Nat).flatMap (fun i => [opLOAD_CONST, i, opPOP]))
      = [opLOAD_CONST, 256, opPOP] from rfl]
  rw [List.getLast?_append_cons]
  rfl

theorem manyConsts_code :
    (lowerProgram progManyConsts).code
      = ((List.range 257).flatMap (fun i => [opLOAD_CONST, i, opPOP]))
        ++ [opUNDEFINED, opRETURN] := by
  unfold lowerProgram
  rw [show progManyConsts = (List.range 257).map numLitStmt from rfl]
  unfold finishProgram
  rw [if_neg (by rw [manyConsts_fold_code, manyConsts_flat_getLast]; decide)]
  rw [emit_code, emit_code, manyConsts_fold_code, List.append_assoc]
  rfl

theorem manyConsts_mem : (256 : Nat) ∈ (lowerProgram progManyConsts).code := by
  rw [manyConsts_code]
  apply List.mem_append_left
  rw [range257, List.flatMap_append]
  apply List.mem_append_right
  show (256 : Nat) ∈ ([opLOAD_CONST, 256, opPOP] : List Nat)
  decide

theorem manyConsts_len : (lowerProgram progManyConsts).consts.length = 257 := by
  unfold lowerProgram
  rw [show progManyConsts = (List.range 257).map numLitStmt from rfl]
  unfold finishProgram
  split_ifs
  · exact manyConsts_fold_len
  · rw [emit_consts, emit_consts]
    exact manyConsts_fold_len

/-- Claim C6 counterexample: lowering a program with 257 distinct constants
completes and emits the pool index 256 as an operand byte; addConstant
(lines 213-227) has no overflow check and no abort path. -/
theorem c6_no_overflow_counterexample :
    (256 : Nat) ∈ (lowerProgram progManyConsts).code
    ∧ (lowerProgram progManyConsts).consts.length = 257 :=
  ⟨manyConsts_mem, manyConsts_len⟩

/-- Claim C6 amended: instead of raising a pool-overflow error, emission
continues, and the byte-buffer conversion before encryption (line 586)
silently truncates the stream: the buffered bytes differ from the emitted
stream and the operand byte 256 is no longer present. -/
theorem c6_truncation :
    bufferFrom (lowerProgram progManyConsts).code ≠ (lowerProgram progManyConsts).code
    ∧ (256 : Nat) ∉ bufferFrom (lowerProgram progManyConsts).code := by
  have hnot : (256 : Nat) ∉ bufferFrom (lowerProgram progManyConsts).code := by
    intro hmem
    rcases List.mem_map.mp hmem with ⟨x, _, hx⟩
    have := Nat.mod_lt x (show 0 < 256 by norm_num)
    omega
  exact ⟨fun heq => hnot (by rw [heq]; exact manyConsts_mem), hnot⟩

/-! ## Jump patching against the dispatcher (claim C1) -/

/-- Claim C1: refuted on the code.  Lowering the ternary 1 ? 2 : 3 patches
the operand byte of the emitted JUMP (opcode at pc 6, operand at stream
index 7) with the raw displacement 4 = 10 - 6 rather than with the index
of a pool slot holding that displacement: the pool has only three entries,
so operand 4 names no slot, the dispatcher reads constantsTable[4] =
undefined as the offset (lines 1086-1089), skips the pc adjustment of
line 1316, and execution continues at pc 8 instead of the patched target
label 10. -/
theorem c1_jump_patch_bug :
    (lowerProgram progTernary).code = [1, 0, 9, 6, 1, 1, 7, 4, 1, 2, 14, 30, 6]
    ∧ (lowerProgram progTernary).code.get? 7 = some 4
    ∧ (lowerProgram progTernary).consts.length = 3
    ∧ execStep (plainPool (lowerProgram progTernary)) [] (lowerProgram progTernary).code
        { stack := [Value.num 2], scope := [], tryBlocks := [], pc := 6 }
      = StepRes.cont { stack := [Value.num 2], scope := [], tryBlocks := [], pc := 8 }
    ∧ (8 : Int) ≠ 10 :=
  ⟨rfl, rfl, rfl, rfl, by decide⟩

/-! ## Bytecode encryption and NOP padding (claim C2) -/

/-- Claim C2: refuted on the code.  With a cipher that satisfies the
round-trip law (first conjunct), splicing one NOP into the ciphertext and
then decrypting the padded ciphertext as a whole, filtering NOP bytes only
afterwards (decryptBytecode, lines 773-798), does not return the original
bytecode: the spliced NOP is decrypted into a non-NOP byte that survives
the filter. -/
theorem c2_nop_splice_bug :
    xorCipher 1 (xorCipher 1 [opUNDEFINED, opRETURN]) = [opUNDEFINED, opRETURN]
    ∧ decryptBytecode (xorCipher 1)
        (obfuscateBytecode (xorCipher 1) [0] [opUNDEFINED, opRETURN])
      ≠ [opUNDEFINED, opRETURN] :=
  ⟨by decide, by decide⟩

/-! ## String-constant decoding key (claim C3) -/

/-- Claim C3: refuted on the code.  The encoder XORs the string bytes with
the fresh stringKey of line 623 (here 32 bytes of the hex character 0),
but the emitted decoder XORs with the bytecode-encryption key
_encryptionKey (lines 805-806; here 64 bytes of the hex character 2), so
the string constant a decodes to c rather than to a.  The third conjunct
shows the stream is involutive under the correct key, so the defect is
exactly the key mismatch. -/
theorem c3_decoder_key_bug :
    getConstant [obfuscateStringConst (List.replicate 32 48) (.str "a")]
        (List.replicate 64 50) (some 0) = Value.str "c"
    ∧ Value.str "c" ≠ Value.str "a"
    ∧ bytesStr (xorStream (List.replicate 32 48)
        (xorStream (List.replicate 32 48) (strBytes "a"))) = "a" := by
  refine ⟨rfl, fun h => ?_, rfl⟩
  injection h with h2
  exact absurd h2 (by decide)

/-! ## Operand counts written versus consumed (claim C4) -/

/-- Claim C4: refuted on the code.  Lowering the member assignment
o.p = 1 emits STORE_PROPERTY with no operand byte (line 372), while the
dispatcher always fetches one operand byte for STORE_PROPERTY
(lines 1278-1289): reading the emitted stream with the dispatcher table
swallows the following DUPLICATE opcode as the operand, so the decoded
instruction sequence differs from the emitted one. -/
theorem c4_operand_count_bug :
    (lowerProgram progMemberAssign).tr
      = [(opLOAD_VAR, 1), (opLOAD_CONST, 1), (opLOAD_CONST, 1), (opSTORE_PROPERTY, 0),
         (opDUPLICATE, 0), (opPOP, 0), (opUNDEFINED, 0), (opRETURN, 0)]
    ∧ dispatchOperandCount opSTORE_PROPERTY = 1
    ∧ (decodeStream 20 (lowerProgram progMemberAssign).code).map Prod.fst
      = [opLOAD_VAR, opLOAD_CONST, opLOAD_CONST, opSTORE_PROPERTY, opPOP,
         opUNDEFINED, opRETURN]
    ∧ (decodeStream 20 (lowerProgram progMemberAssign).code).map
        (fun x => (x.1, x.2.length))
      ≠ (lowerProgram progMemberAssign).tr :=
  ⟨rfl, rfl, rfl, by decide⟩

/-! ## Exception dispatch (claim C5) -/

/-- Claim C5 counterexample: refuted as stated.  Executing THROW with one
try frame on the stack pushes the exception and jumps to the catch pc,
but the try-block list still holds that frame afterwards: handleException
(lines 888-902) never pops it. -/
theorem c5_frame_not_popped :
    execStep [] [] [opTHROW]
        { stack := [Value.num 9], scope := [], tryBlocks := [⟨Value.num 5, Value.null⟩],
          pc := 0 }
      = StepRes.cont
          { stack := [Value.num 9], scope := [], tryBlocks := [⟨Value.num 5, Value.null⟩],
            pc := 5 }
    ∧ ([(⟨Value.num 5, Value.null⟩ : TryFrame)] : List TryFrame) ≠ [] :=
  ⟨rfl, by simp⟩

/-- Claim C5 amended: when a handler throws and the try-block list is
non-empty, the dispatcher pushes the exception onto the operand stack and
sets pc to the innermost (last) catch pc, leaving the try frame on the
list (only TRY_END pops it); when the list is empty the exception
propagates out of the dispatch loop. -/
theorem c5_exception_step :
    (∀ (e : Value) (st : List Value) (sc : List (String × Value)) (fs : List TryFrame)
        (n : Int) (fv : Value) (pool : List OConst) (key : List Nat),
      execStep pool key [opTHROW]
          { stack := e :: st, scope := sc, tryBlocks := fs ++ [⟨Value.num n, fv⟩], pc := 0 }
        = StepRes.cont
            { stack := e :: st, scope := sc, tryBlocks := fs ++ [⟨Value.num n, fv⟩],
              pc := n })
    ∧ (∀ (e : Value) (st : List Value) (sc : List (String × Value))
        (pool : List OConst) (key : List Nat),
      execStep pool key [opTHROW]
          { stack := e :: st, scope := sc, tryBlocks := [], pc := 0 }
        = StepRes.err e) := by
  constructor
  · intro e st sc fs n fv pool key
    show dispatchEx e
        { stack := st, scope := sc, tryBlocks := fs ++ [⟨Value.num n, fv⟩], pc := 1 } = _
    unfold dispatchEx
    rw [if_pos (by simp), List.getLast?_concat]
  · intro e st sc pool key
    rfl

/-! ## The arithmetic end-to-end scenario (claim C9) -/

/-- Claim C9 counterexample: refuted as stated.  Executing the lowered
program 1 + 2 * 3 returns undefined, not 7: the expression statement pops
its value (line 441) and the appended UNDEFINED and RETURN return
undefined. -/
theorem c9_value_not_seven :
    runLowered progArith [] 20 = RunRes.ret Value.undef
    ∧ RunRes.ret Value.undef ≠ RunRes.ret (Value.num 7) := by
  refine ⟨rfl, fun h => ?_⟩
  injection h with h2
  exact Value.noConfusion h2

/-- Claim C9 amended: lowering 1 + 2 * 3 emits exactly the instruction
sequence LOAD_CONST, LOAD_CONST, LOAD_CONST, BINARY_OP with the times
operator, BINARY_OP with the plus operator, POP, UNDEFINED, RETURN, and
executing the emitted program yields the final value undefined. -/
theorem c9_trace_and_result :
    (lowerProgram progArith).code = [1, 0, 1, 1, 1, 2, 4, 3, 4, 4, 14, 30, 6]
    ∧ (lowerProgram progArith).consts
      = [.num 1, .num 2, .num 3, .str "*", .str "+"]
    ∧ (lowerProgram progArith).tr
      = [(opLOAD_CONST, 1), (opLOAD_CONST, 1), (opLOAD_CONST, 1), (opBINARY_OP, 1),
         (opBINARY_OP, 1), (opPOP, 0), (opUNDEFINED, 0), (opRETURN, 0)]
    ∧ runLowered progArith [] 20 = RunRes.ret Value.undef :=
  ⟨rfl, rfl, rfl, rfl⟩

/-! ## CALL_FUNCTION receiver (claim C10) -/

/-- Claim C10: every CALL_FUNCTION dispatch applies the callee with the
this-binding null (func.apply(null, args), line 1076), for any callee
behaviour and stack remainder; and running the lowered member call o.m(),
where the method returns its this-binding, yields null rather than the
containing object. -/
theorem c10_null_receiver :
    (∀ (fb : FnBody) (rest : List Value) (sc : List (String × Value))
        (pool : List OConst) (key : List Nat),
      execStep pool key [opCALL_FUNCTION, 0]
          { stack := Value.func fb :: rest, scope := sc, tryBlocks := [], pc := 0 }
        = StepRes.cont
            { stack := applyFunc fb Value.null [] :: rest, scope := sc, tryBlocks := [],
              pc := 2 })
    ∧ runLowered progMemberCall [("o", Value.obj [("m", Value.func .returnThis)])] 10
      = RunRes.ret Value.null := by
  constructor
  · intro fb rest sc pool key
    rfl
  · rfl
